import Mathlib

/-!
Verification of the real-time room broadcast hub and AI stream relay of the
BE-HACKATHON-ZOOM-AI-KOLOSAL backend.

The Go sources embedded here:
* `internal/app/chat_handler.go` — the `KolosalAPI` handler: the simulated
  token-stream relay (rune chunking loop), the provider-error path and the
  persistence / `ai_complete` path, plus `GetMessages` query sanitization.
* `internal/service/kolosal_service.go` — `ChatCompletions` configuration
  guards and URL building.
* The hub itself (hub.go / client.go) is not part of the provided sources;
  it is modelled from the design spec where a claim needs it.

Go strings sliced as `[]rune` are modelled as `List Char`; machine ints are
`Nat`/`Int` (with Go division-by-zero panics made explicit as `Option`).
-/

/-! ## Stream Relay chunking (chat_handler.go, KolosalAPI lines 551-586)

Source:
```
chunkSize := 20 // characters per chunk
aiResponseRunes := []rune(aiResponse)
totalChunks := (len(aiResponseRunes) + chunkSize - 1) / chunkSize
for i := 0; i < totalChunks; i++ {
    start := i * chunkSize
    end := start + chunkSize
    if end > len(aiResponseRunes) { end = len(aiResponseRunes) }
    chunk := string(aiResponseRunes[start:end])
    accumulatedContent := string(aiResponseRunes[0:end])
    ... broadcast ai_stream {id: tempID, content: accumulatedContent, chunk: chunk, ...}
    time.Sleep(50 * time.Millisecond)
}
```
-/

/-- The hard-coded chunk size of the relay loop (`chunkSize := 20`). -/
def chunkSize : Nat := 20

/-- `totalChunks := (len(aiResponseRunes) + chunkSize - 1) / chunkSize`. -/
def totalChunks (n cs : Nat) : Nat := (n + cs - 1) / cs

/-- The `end` bound of iteration `i`: `end := start + chunkSize`, clamped to the
rune count (`if end > len { end = len }`). -/
def chunkEnd (n cs i : Nat) : Nat := min (i * cs + cs) n

/-- The chunk texts of one relay invocation, in emission order:
`chunk := string(aiResponseRunes[start:end])` for `i = 0 .. totalChunks-1`. -/
def relayChunkList (runes : List Char) (cs : Nat) : List (List Char) :=
  (List.range (totalChunks runes.length cs)).map fun i =>
    (runes.take (chunkEnd runes.length cs i)).drop (i * cs)

/-- Payload of one `ai_stream` broadcast of the relay loop. -/
structure StreamPayload where
  id : String
  content : List Char
  chunk : List Char
  userId : String
  userName : String
  userEmail : String
  deriving DecidableEq, Repr

/-- The `ai_stream` payloads of one relay invocation, in emission order.
`content` is `accumulatedContent := string(aiResponseRunes[0:end])`. -/
def relayPayloads (tempID userID : String) (runes : List Char) (cs : Nat) :
    List StreamPayload :=
  (List.range (totalChunks runes.length cs)).map fun i =>
    { id := tempID
      content := runes.take (chunkEnd runes.length cs i)
      chunk := (runes.take (chunkEnd runes.length cs i)).drop (i * cs)
      userId := userID
      userName := "AI Agent"
      userEmail := "ai@agent.com" }

/-- UTF-8 encoding of one character (byte values), as Go produces when a
`[]rune` slice is converted back with `string(...)`. -/
def utf8EncodeChar (c : Char) : List Nat :=
  let n := c.toNat
  if n < 128 then [n]
  else if n < 2048 then [192 + n / 64, 128 + n % 64]
  else if n < 65536 then [224 + n / 4096, 128 + (n / 64) % 64, 128 + n % 64]
  else [240 + n / 262144, 128 + (n / 4096) % 64, 128 + (n / 64) % 64, 128 + n % 64]

/-- UTF-8 byte sequence of a rune list. -/
def encodeUtf8 (l : List Char) : List Nat := (l.map utf8EncodeChar).flatten

/-! ### Arithmetic facts about the chunk count -/

theorem le_totalChunks_mul (n cs : Nat) (h : 0 < cs) : n ≤ totalChunks n cs * cs := by
  unfold totalChunks
  have h1 : (n + cs - 1) / cs < (n + cs - 1) / cs + 1 := Nat.lt_succ_self _
  have h2 := (Nat.div_lt_iff_lt_mul h).mp h1
  have h3 : ((n + cs - 1) / cs + 1) * cs = (n + cs - 1) / cs * cs + cs := by ring
  omega

theorem totalChunks_eq_zero_iff (n cs : Nat) (h : 0 < cs) :
    totalChunks n cs = 0 ↔ n = 0 := by
  unfold totalChunks
  constructor
  · intro h0
    have h1 : ¬ 1 ≤ (n + cs - 1) / cs := by omega
    have h2 : ¬ 1 * cs ≤ n + cs - 1 := fun hc => h1 ((Nat.le_div_iff_mul_le h).mpr hc)
    omega
  · intro h0
    subst h0
    simp only [Nat.zero_add]
    exact Nat.div_eq_of_lt (by omega)

theorem mul_lt_of_lt_totalChunks (n cs i : Nat) (h : 0 < cs)
    (hi : i + 1 < totalChunks n cs) : (i + 1) * cs < n := by
  unfold totalChunks at hi
  have h1 : i + 2 ≤ (n + cs - 1) / cs := by omega
  have h2 : (i + 2) * cs ≤ n + cs - 1 := (Nat.le_div_iff_mul_le h).mp h1
  have h3 : (i + 2) * cs = (i + 1) * cs + cs := by ring
  omega

/-! ### The round-trip lemma: joining the chunks up to `k` gives the prefix -/

theorem relay_join_take (runes : List Char) (cs k : Nat) :
    ((List.range k).map fun i =>
        (runes.take (chunkEnd runes.length cs i)).drop (i * cs)).flatten
      = runes.take (min (k * cs) runes.length) := by
  induction k with
  | zero => simp
  | succ k ih =>
    rw [List.range_succ, List.map_append, List.flatten_append, ih]
    simp only [List.map_cons, List.map_nil, List.flatten_cons, List.flatten_nil,
      List.append_nil]
    unfold chunkEnd
    rcases Nat.le_total runes.length (k * cs) with hle | hle
    · have h1 : min (k * cs) runes.length = runes.length := by omega
      have h2 : min (k * cs + cs) runes.length = runes.length := by omega
      have h3 : min ((k + 1) * cs) runes.length = runes.length := by
        have : (k + 1) * cs = k * cs + cs := by ring
        omega
      rw [h1, h2, h3, List.take_length]
      have h4 : (runes.drop (k * cs)) = [] := by
        apply List.drop_eq_nil_of_le
        omega
      rw [h4, List.append_nil]
    · have h1 : min (k * cs) runes.length = k * cs := by omega
      have h2 : (k + 1) * cs = k * cs + cs := by ring
      rw [h1, h2]
      have h3 : k * cs ≤ min (k * cs + cs) runes.length := by omega
      have h4 : runes.take (k * cs) = (runes.take (min (k * cs + cs) runes.length)).take (k * cs) := by
        rw [List.take_take]
        congr 1
        omega
      rw [h4, List.take_append_drop]

theorem relayChunkList_join (runes : List Char) (cs : Nat) (h : 0 < cs) :
    (relayChunkList runes cs).flatten = runes := by
  unfold relayChunkList
  rw [relay_join_take]
  have h1 := le_totalChunks_mul runes.length cs h
  have h2 : min (totalChunks runes.length cs * cs) runes.length = runes.length := by
    omega
  rw [h2, List.take_length]

theorem relayPayloads_map_chunk (tempID userID : String) (runes : List Char) (cs : Nat) :
    (relayPayloads tempID userID runes cs).map StreamPayload.chunk = relayChunkList runes cs := by
  unfold relayPayloads relayChunkList
  rw [List.map_map]
  rfl

theorem encodeUtf8_flatten (L : List (List Char)) :
    (L.map encodeUtf8).flatten = encodeUtf8 L.flatten := by
  induction L with
  | nil => rfl
  | cons a L ih =>
    simp only [List.map_cons, List.flatten_cons]
    rw [ih]
    unfold encodeUtf8
    rw [List.map_append, List.flatten_append]

theorem relayChunkList_getElem (runes : List Char) (cs i : Nat) (c : List Char)
    (hc : (relayChunkList runes cs)[i]? = some c) :
    i < totalChunks runes.length cs ∧
      c = (runes.take (chunkEnd runes.length cs i)).drop (i * cs) := by
  have hlt : i < totalChunks runes.length cs := by
    obtain ⟨hl, _⟩ := List.getElem?_eq_some_iff.mp hc
    simpa [relayChunkList] using hl
  refine ⟨hlt, ?_⟩
  have hval : (relayChunkList runes cs)[i]?
      = some ((runes.take (chunkEnd runes.length cs i)).drop (i * cs)) := by
    unfold relayChunkList
    rw [List.getElem?_map, List.getElem?_range hlt]
    rfl
  rw [hval] at hc
  exact (Option.some_inj.mp hc).symm

theorem relayPayloads_getElem (tempID userID : String) (runes : List Char) (cs i : Nat)
    (p : StreamPayload) (hp : (relayPayloads tempID userID runes cs)[i]? = some p) :
    i < totalChunks runes.length cs ∧
      p = { id := tempID
            content := runes.take (chunkEnd runes.length cs i)
            chunk := (runes.take (chunkEnd runes.length cs i)).drop (i * cs)
            userId := userID
            userName := "AI Agent"
            userEmail := "ai@agent.com" } := by
  have hlt : i < totalChunks runes.length cs := by
    obtain ⟨hl, _⟩ := List.getElem?_eq_some_iff.mp hp
    simpa [relayPayloads] using hl
  refine ⟨hlt, ?_⟩
  have hval : (relayPayloads tempID userID runes cs)[i]?
      = some { id := tempID
               content := runes.take (chunkEnd runes.length cs i)
               chunk := (runes.take (chunkEnd runes.length cs i)).drop (i * cs)
               userId := userID
               userName := "AI Agent"
               userEmail := "ai@agent.com" } := by
    unfold relayPayloads
    rw [List.getElem?_map, List.getElem?_range hlt]
    rfl
  rw [hval] at hp
  exact (Option.some_inj.mp hp).symm

/-- C1: Stream Relay round-trip — for every full text and every chunk size > 0,
concatenating the `chunk` payload fields of all `ai_stream` envelopes emitted by
one relay invocation, in emission order, reproduces the full text exactly, and
the `accumulated` (`content`) field of the final chunk equals the full text. -/
theorem stream_relay_roundtrip (tempID userID : String) (runes : List Char)
    (cs : Nat) (h : 0 < cs) :
    ((relayPayloads tempID userID runes cs).map StreamPayload.chunk).flatten = runes ∧
    ∀ p, (relayPayloads tempID userID runes cs).getLast? = some p → p.content = runes := by
  constructor
  · rw [relayPayloads_map_chunk]
    exact relayChunkList_join runes cs h
  · intro p hp
    unfold relayPayloads at hp
    rw [List.getLast?_map] at hp
    rcases hk : totalChunks runes.length cs with _ | m
    · rw [hk] at hp
      simp at hp
    · rw [hk, List.range_succ, List.getLast?_concat] at hp
      have hfm := Option.some_inj.mp hp
      have hcontent : p.content = runes.take (chunkEnd runes.length cs m) := by
        rw [← hfm]
      rw [hcontent]
      have hle := le_totalChunks_mul runes.length cs h
      rw [hk] at hle
      have hmul : (m + 1) * cs = m * cs + cs := by ring
      have hend : chunkEnd runes.length cs m = runes.length := by
        unfold chunkEnd
        omega
      rw [hend, List.take_length]

/-- Witness for C1 at a concrete input: text "hello", chunk size 2. -/
theorem stream_relay_roundtrip_witness :
    0 < 2 ∧
    (((relayPayloads "t1" "u1" ['h', 'e', 'l', 'l', 'o'] 2).map StreamPayload.chunk).flatten
        = ['h', 'e', 'l', 'l', 'o'] ∧
      ∀ p, (relayPayloads "t1" "u1" ['h', 'e', 'l', 'l', 'o'] 2).getLast? = some p →
        p.content = ['h', 'e', 'l', 'l', 'o']) :=
  ⟨by decide, stream_relay_roundtrip "t1" "u1" ['h', 'e', 'l', 'l', 'o'] 2 (by decide)⟩

/-- C2: the relay partitions the full text into ordered chunks of at most
`chunk_size` whole characters (every chunk except possibly the last has exactly
`chunk_size` characters), and the chunks are whole-character slices: their UTF-8
encodings concatenate to the UTF-8 encoding of the full text, so no multi-byte
character is ever split. -/
theorem relay_chunk_shape (runes : List Char) (cs : Nat) (h : 0 < cs) :
    (relayChunkList runes cs).flatten = runes ∧
    (∀ i c, (relayChunkList runes cs)[i]? = some c →
      c.length ≤ cs ∧ (i + 1 < totalChunks runes.length cs → c.length = cs)) ∧
    ((relayChunkList runes cs).map encodeUtf8).flatten = encodeUtf8 runes := by
  refine ⟨relayChunkList_join runes cs h, ?_, ?_⟩
  · intro i c hc
    obtain ⟨hlt, rfl⟩ := relayChunkList_getElem runes cs i c hc
    constructor
    · rw [List.length_drop, List.length_take]
      unfold chunkEnd
      omega
    · intro hi
      have h2 := mul_lt_of_lt_totalChunks runes.length cs i h hi
      have h3 : (i + 1) * cs = i * cs + cs := by ring
      rw [List.length_drop, List.length_take]
      unfold chunkEnd
      omega
  · rw [encodeUtf8_flatten, relayChunkList_join runes cs h]

/-- Witness for C2 at a concrete input: multi-byte text "héllo✓" with
chunk size 1 — every chunk is one whole character. -/
theorem relay_chunk_shape_witness :
    0 < 1 ∧
    ((relayChunkList ['h', 'é', 'l', 'l', 'o', '✓'] 1).flatten
        = ['h', 'é', 'l', 'l', 'o', '✓'] ∧
      (∀ i c, (relayChunkList ['h', 'é', 'l', 'l', 'o', '✓'] 1)[i]? = some c →
        c.length ≤ 1 ∧ (i + 1 < totalChunks (['h', 'é', 'l', 'l', 'o', '✓'] : List Char).length 1 → c.length = 1)) ∧
      ((relayChunkList ['h', 'é', 'l', 'l', 'o', '✓'] 1).map encodeUtf8).flatten
        = encodeUtf8 ['h', 'é', 'l', 'l', 'o', '✓']) :=
  ⟨by decide, relay_chunk_shape ['h', 'é', 'l', 'l', 'o', '✓'] 1 (by decide)⟩

/-- C3: monotone accumulated prefix — the `content` field of the i-th
`ai_stream` payload equals the concatenation of chunks 0..i, equivalently the
character-prefix of the full text of length `min ((i+1)*chunk_size, length)`,
and every `ai_stream` payload of the invocation carries the same correlation
identifier `tempID`. -/
theorem relay_accumulated_monotone (tempID userID : String) (runes : List Char)
    (cs : Nat) (h : 0 < cs) :
    ∀ i p, (relayPayloads tempID userID runes cs)[i]? = some p →
      p.content = ((relayChunkList runes cs).take (i + 1)).flatten ∧
      p.content = runes.take (min ((i + 1) * cs) runes.length) ∧
      p.id = tempID := by
  intro i p hp
  obtain ⟨hlt, rfl⟩ := relayPayloads_getElem tempID userID runes cs i p hp
  have hmul : (i + 1) * cs = i * cs + cs := by ring
  have hpref : (runes.take (chunkEnd runes.length cs i))
      = runes.take (min ((i + 1) * cs) runes.length) := by
    unfold chunkEnd
    rw [hmul]
  refine ⟨?_, hpref, rfl⟩
  have htake : (relayChunkList runes cs).take (i + 1)
      = (List.range (i + 1)).map fun j =>
          (runes.take (chunkEnd runes.length cs j)).drop (j * cs) := by
    unfold relayChunkList
    have hmin : min (i + 1) (totalChunks runes.length cs) = i + 1 := by omega
    rw [← List.map_take, List.take_range, hmin]
  show runes.take (chunkEnd runes.length cs i) = _
  rw [htake, relay_join_take, hpref]

/-- Witness for C3 at a concrete input: text "hello", chunk size 2, index 1. -/
theorem relay_accumulated_monotone_witness :
    0 < 2 ∧
    (relayPayloads "t1" "u1" ['h', 'e', 'l', 'l', 'o'] 2)[1]?
        = some { id := "t1", content := ['h', 'e', 'l', 'l'], chunk := ['l', 'l'],
                 userId := "u1", userName := "AI Agent", userEmail := "ai@agent.com" } ∧
    (['h', 'e', 'l', 'l'] : List Char)
        = ((relayChunkList ['h', 'e', 'l', 'l', 'o'] 2).take 2).flatten ∧
    (['h', 'e', 'l', 'l'] : List Char)
        = (['h', 'e', 'l', 'l', 'o'] : List Char).take (min (2 * 2) 5) ∧
    "t1" = "t1" :=
  ⟨by decide, by decide,
    (relay_accumulated_monotone "t1" "u1" ['h', 'e', 'l', 'l', 'o'] 2 (by decide) 1
      { id := "t1", content := ['h', 'e', 'l', 'l'], chunk := ['l', 'l'],
        userId := "u1", userName := "AI Agent", userEmail := "ai@agent.com" }
      (by decide)).1,
    (relay_accumulated_monotone "t1" "u1" ['h', 'e', 'l', 'l', 'o'] 2 (by decide) 1
      { id := "t1", content := ['h', 'e', 'l', 'l'], chunk := ['l', 'l'],
        userId := "u1", userName := "AI Agent", userEmail := "ai@agent.com" }
      (by decide)).2.1,
    (relay_accumulated_monotone "t1" "u1" ['h', 'e', 'l', 'l', 'o'] 2 (by decide) 1
      { id := "t1", content := ['h', 'e', 'l', 'l'], chunk := ['l', 'l'],
        userId := "u1", userName := "AI Agent", userEmail := "ai@agent.com" }
      (by decide)).2.2⟩

/-! ## Event envelopes and the KolosalAPI handler (chat_handler.go lines 152-645)

The handler is embedded as a pure function of the collaborator results it
consumes: the `ChatCompletions` result (`chatResult`) and the message store
`CreateMessage` result (`createResult`).  The clock-derived values (`tempID`,
`now`) are inputs.  The handler's only hub interaction is
`h.hub.BroadcastMessage`; its output is the emission-ordered list of broadcast
envelopes paired with the HTTP response. -/

/-- `service.Message`. -/
structure KMessage where
  role : String
  content : String
  deriving DecidableEq, Repr

/-- `service.Choice`. -/
structure Choice where
  index : Nat
  message : KMessage
  finishReason : String
  deriving DecidableEq, Repr

/-- `service.Usage`. -/
structure Usage where
  promptTokens : Nat
  completionTokens : Nat
  totalTokens : Nat
  deriving DecidableEq, Repr

/-- `service.KolosalChatResponse`. -/
structure KolosalChatResponse where
  id : String
  object : String
  created : Int
  model : String
  choices : List Choice
  usage : Usage
  deriving DecidableEq, Repr

/-- `service.ChatMessageResponse` (the persisted chat message shape). -/
structure ChatMessageResponse where
  id : String
  roomId : String
  userId : String
  userName : String
  userEmail : String
  message : String
  createdAt : Nat
  deriving DecidableEq, Repr

/-- Payloads of the `websocket.Message` values the handler broadcasts. -/
inductive Payload where
  | typing (userId status : String)
  | aiError (userId err : String)
  | stream (p : StreamPayload)
  | complete (tempId userId : String) (message : ChatMessageResponse)
  deriving DecidableEq, Repr

/-- A `websocket.Message` broadcast through the hub. -/
structure Envelope where
  roomId : String
  userId : String
  eventType : String
  payload : Payload
  deriving DecidableEq, Repr

/-- The `ai_typing` broadcast at the start of `KolosalAPI`. -/
def typingEnvelope (roomID userID : String) : Envelope :=
  { roomId := roomID, userId := userID, eventType := "ai_typing",
    payload := .typing userID "processing" }

/-- The `ai_error` broadcast on a failed Kolosal API call. -/
def aiErrorEnvelope (roomID userID msg : String) : Envelope :=
  { roomId := roomID, userId := userID, eventType := "ai_error",
    payload := .aiError userID msg }

/-- One `ai_stream` broadcast of the relay loop. -/
def streamEnvelope (roomID userID : String) (p : StreamPayload) : Envelope :=
  { roomId := roomID, userId := userID, eventType := "ai_stream",
    payload := .stream p }

/-- The terminal `ai_complete` broadcast. -/
def completeEnvelope (roomID userID tempID : String) (m : ChatMessageResponse) : Envelope :=
  { roomId := roomID, userId := userID, eventType := "ai_complete",
    payload := .complete tempID userID m }

/-- The `ai_stream` envelopes of one relay invocation, in emission order. -/
def relayEnvelopes (roomID userID tempID : String) (runes : List Char) (cs : Nat) :
    List Envelope :=
  (relayPayloads tempID userID runes cs).map (streamEnvelope roomID userID)

/-- Extraction of the response text:
`if len(response.Choices) > 0 && len(response.Choices[0].Message.Content) > 0`. -/
def aiResponseOf (r : KolosalChatResponse) : String :=
  match r.choices with
  | [] => "No response from AI"
  | c :: _ => if 0 < c.message.content.length then c.message.content
              else "No response from AI"

/-- The best-effort transient record built when `CreateMessage` fails
(`aiMessage = &service.ChatMessageResponse{...}`). -/
def transientAIMessage (roomID aiResponse : String) (now : Nat) : ChatMessageResponse :=
  { id := "ai-" ++ toString now, roomId := roomID, userId := "ai-agent",
    userName := "AI Agent", userEmail := "ai@agent.com",
    message := aiResponse, createdAt := now }

/-- The message carried by the `ai_complete` broadcast: the persisted message on
store success, the transient record on store failure. -/
def aiMessageResult (roomID aiResponse : String) (now : Nat)
    (createResult : Except String ChatMessageResponse) : ChatMessageResponse :=
  match createResult with
  | .ok m => m
  | .error _ => transientAIMessage roomID aiResponse now

/-- The streaming loop followed by the persistence step and the terminal
`ai_complete` broadcast (chat_handler.go lines 554-621). -/
def relayAndComplete (roomID userID tempID : String) (now : Nat) (aiResponse : String)
    (createResult : Except String ChatMessageResponse) : List Envelope :=
  relayEnvelopes roomID userID tempID aiResponse.toList chunkSize
    ++ [completeEnvelope roomID userID tempID
          (aiMessageResult roomID aiResponse now createResult)]

/-- HTTP result of the handler (`util.SuccessResponse` / `util.ErrorResponse`). -/
inductive HandlerHTTP where
  | success (status : Nat) (message : String)
  | failure (status : Nat) (message : String)
  deriving DecidableEq, Repr

/-- Go `strings.Contains(s, sub)` on rune lists. -/
def containsSub (s sub : List Char) : Bool :=
  match s with
  | [] => sub.isEmpty
  | c :: t => sub.isPrefixOf (c :: t) || containsSub t sub

/-- Go `strings.Contains` on strings. -/
def strContains (s sub : String) : Bool := containsSub s.toList sub.toList

/-- The HTTP message of the configuration-error branch. -/
def configErrMsg : String :=
  "Kolosal AI is not properly configured. Please check server environment variables."

/-- `fmt.Sprintf("Failed to call Kolosal API: %v", err)`. -/
def failedCallMsg (e : String) : String := "Failed to call Kolosal API: " ++ e

/-- The regular chat-completion path of `KolosalAPI` after request validation:
broadcast `ai_typing`, call the provider, and either take the error path
(configuration error short-circuit, or `ai_error` broadcast) or stream the
response and broadcast `ai_complete`.  Output: broadcasts in emission order,
and the HTTP response. -/
def kolosalAPIChat (roomID userID tempID : String) (now : Nat)
    (chatResult : Except String KolosalChatResponse)
    (createResult : Except String ChatMessageResponse) :
    List Envelope × HandlerHTTP :=
  let typing := typingEnvelope roomID userID
  match chatResult with
  | .error e =>
    if strContains e "KOLOSAL_API_KEY" || strContains e "KOLOSAL_API_URL" then
      ([typing], .failure 500 configErrMsg)
    else
      ([typing, aiErrorEnvelope roomID userID (failedCallMsg e)],
        .failure 500 (failedCallMsg e))
  | .ok response =>
    let aiResponse := aiResponseOf response
    (typing :: relayAndComplete roomID userID tempID now aiResponse createResult,
      .success 200 "Kolosal API request successful")

theorem relayEnvelopes_eventType (roomID userID tempID : String) (runes : List Char)
    (cs : Nat) : ∀ env ∈ relayEnvelopes roomID userID tempID runes cs,
      env.eventType = "ai_stream" := by
  intro env henv
  unfold relayEnvelopes at henv
  obtain ⟨p, _, rfl⟩ := List.mem_map.mp henv
  rfl

theorem relayEnvelopes_countP_zero (roomID userID tempID s : String) (runes : List Char)
    (cs : Nat) (hs : s ≠ "ai_stream") :
    (relayEnvelopes roomID userID tempID runes cs).countP
      (fun x => x.eventType == s) = 0 := by
  rw [List.countP_eq_zero]
  intro a ha
  rw [relayEnvelopes_eventType roomID userID tempID runes cs a ha]
  simp only [beq_iff_eq]
  exact fun hc => hs hc.symm

/-- C4 counterexample: the upstream provider error produced by an unset
`KOLOSAL_API_KEY` (the exact message `ChatCompletions` returns) is NOT followed
by an `ai_error` broadcast — the handler short-circuits to the HTTP
configuration-error response, so zero `ai_error` envelopes reach the room. -/
theorem provider_error_without_ai_error_broadcast :
    (kolosalAPIChat "r1" "u1" "t1" 0
        (Except.error
          "KOLOSAL_API_KEY is not set. Please configure KOLOSAL_API_KEY environment variable")
        (Except.error "store down")).1.countP
      (fun x => x.eventType == "ai_error") = 0 ∧
    (kolosalAPIChat "r1" "u1" "t1" 0
        (Except.error
          "KOLOSAL_API_KEY is not set. Please configure KOLOSAL_API_KEY environment variable")
        (Except.error "store down")).2
      = HandlerHTTP.failure 500 configErrMsg := by
  constructor
  · rfl
  · rfl

/-- C4 (amended): when the provider call fails, the handler returns an HTTP
error and emits no `ai_stream` or `ai_complete` envelope; it broadcasts exactly
one `ai_error` envelope unless the error message mentions `KOLOSAL_API_KEY` or
`KOLOSAL_API_URL`, in which case the HTTP configuration error is returned with
no `ai_error` broadcast; at most one `ai_error` is broadcast in every case, and
the handler performs no hub action other than broadcasting. -/
theorem provider_error_short_circuit (roomID userID tempID : String) (now : Nat)
    (chatResult : Except String KolosalChatResponse)
    (createResult : Except String ChatMessageResponse) (e : String)
    (h : chatResult = Except.error e) :
    ((strContains e "KOLOSAL_API_KEY" || strContains e "KOLOSAL_API_URL") = true →
      kolosalAPIChat roomID userID tempID now chatResult createResult
        = ([typingEnvelope roomID userID], .failure 500 configErrMsg)) ∧
    ((strContains e "KOLOSAL_API_KEY" || strContains e "KOLOSAL_API_URL") = false →
      kolosalAPIChat roomID userID tempID now chatResult createResult
        = ([typingEnvelope roomID userID, aiErrorEnvelope roomID userID (failedCallMsg e)],
            .failure 500 (failedCallMsg e))) ∧
    (kolosalAPIChat roomID userID tempID now chatResult createResult).1.countP
      (fun x => x.eventType == "ai_stream") = 0 ∧
    (kolosalAPIChat roomID userID tempID now chatResult createResult).1.countP
      (fun x => x.eventType == "ai_complete") = 0 ∧
    (kolosalAPIChat roomID userID tempID now chatResult createResult).1.countP
      (fun x => x.eventType == "ai_error") ≤ 1 ∧
    ∃ msg, (kolosalAPIChat roomID userID tempID now chatResult createResult).2
      = HandlerHTTP.failure 500 msg := by
  subst h
  by_cases hb : (strContains e "KOLOSAL_API_KEY" || strContains e "KOLOSAL_API_URL") = true
  · have hmain : kolosalAPIChat roomID userID tempID now (Except.error e) createResult
        = ([typingEnvelope roomID userID], .failure 500 configErrMsg) := by
      unfold kolosalAPIChat
      simp only [hb, if_true]
    rw [hmain]
    refine ⟨fun _ => rfl, fun hf => ?_, ?_, ?_, ?_, ⟨configErrMsg, rfl⟩⟩
    · rw [hf] at hb
      cases hb
    all_goals simp [typingEnvelope, List.countP_cons, List.countP_nil]
  · have hb2 : (strContains e "KOLOSAL_API_KEY" || strContains e "KOLOSAL_API_URL") = false := by
      revert hb
      cases strContains e "KOLOSAL_API_KEY" || strContains e "KOLOSAL_API_URL" <;> simp
    have hmain : kolosalAPIChat roomID userID tempID now (Except.error e) createResult
        = ([typingEnvelope roomID userID, aiErrorEnvelope roomID userID (failedCallMsg e)],
            .failure 500 (failedCallMsg e)) := by
      unfold kolosalAPIChat
      simp only [hb2, Bool.false_eq_true, if_false]
    rw [hmain]
    refine ⟨fun ht => ?_, fun _ => rfl, ?_, ?_, ?_, ⟨failedCallMsg e, rfl⟩⟩
    · rw [ht] at hb2
      cases hb2
    all_goals simp [typingEnvelope, aiErrorEnvelope, List.countP_cons, List.countP_nil]

/-- Witness for C4 (amended) at a concrete input: a non-configuration provider
error yields exactly the typing broadcast plus one `ai_error` broadcast. -/
theorem provider_error_short_circuit_witness :
    (Except.error "boom" : Except String KolosalChatResponse) = Except.error "boom" ∧
    (strContains "boom" "KOLOSAL_API_KEY" || strContains "boom" "KOLOSAL_API_URL") = false ∧
    kolosalAPIChat "r1" "u1" "t1" 0 (Except.error "boom") (Except.error "store down")
      = ([typingEnvelope "r1" "u1", aiErrorEnvelope "r1" "u1" (failedCallMsg "boom")],
          .failure 500 (failedCallMsg "boom")) :=
  ⟨rfl, by decide,
    (provider_error_short_circuit "r1" "u1" "t1" 0 (Except.error "boom")
        (Except.error "store down") "boom" rfl).2.1 (by decide)⟩

/-- C5: for every relay invocation, after the final chunk exactly one terminal
`ai_complete` envelope is broadcast to the room; it carries the persisted
message when the message store's create succeeds and a best-effort transient
record with the same full response text when create fails; the `ai_complete`
broadcast happens in both cases. -/
theorem ai_complete_always_broadcast (roomID userID tempID : String) (now : Nat)
    (chatResult : Except String KolosalChatResponse)
    (createResult : Except String ChatMessageResponse) (resp : KolosalChatResponse)
    (h : chatResult = Except.ok resp) :
    (kolosalAPIChat roomID userID tempID now chatResult createResult).1
      = typingEnvelope roomID userID
        :: relayEnvelopes roomID userID tempID (aiResponseOf resp).toList chunkSize
        ++ [completeEnvelope roomID userID tempID
              (aiMessageResult roomID (aiResponseOf resp) now createResult)] ∧
    (kolosalAPIChat roomID userID tempID now chatResult createResult).1.countP
      (fun x => x.eventType == "ai_complete") = 1 ∧
    (kolosalAPIChat roomID userID tempID now chatResult createResult).1.getLast?
      = some (completeEnvelope roomID userID tempID
          (aiMessageResult roomID (aiResponseOf resp) now createResult)) ∧
    (∀ m, createResult = Except.ok m →
      aiMessageResult roomID (aiResponseOf resp) now createResult = m) ∧
    (∀ err, createResult = Except.error err →
      (aiMessageResult roomID (aiResponseOf resp) now createResult).message
        = aiResponseOf resp) := by
  subst h
  have hmain : (kolosalAPIChat roomID userID tempID now (Except.ok resp) createResult).1
      = typingEnvelope roomID userID
        :: relayEnvelopes roomID userID tempID (aiResponseOf resp).toList chunkSize
        ++ [completeEnvelope roomID userID tempID
              (aiMessageResult roomID (aiResponseOf resp) now createResult)] := rfl
  refine ⟨hmain, ?_, ?_, ?_, ?_⟩
  · rw [hmain]
    rw [List.countP_append, List.countP_cons, List.countP_cons, List.countP_nil]
    rw [relayEnvelopes_countP_zero roomID userID tempID "ai_complete"
      (aiResponseOf resp).toList chunkSize (by decide)]
    simp [typingEnvelope, completeEnvelope]
  · rw [hmain, List.getLast?_concat]
  · intro m hm
    rw [hm]
    rfl
  · intro err herr
    rw [herr]
    rfl

/-- A sample one-choice provider response with content "hi". -/
def sampleChatResponse : KolosalChatResponse :=
  { id := "c1", object := "chat.completion", created := 0, model := "m",
    choices := [{ index := 0, message := { role := "assistant", content := "hi" },
                  finishReason := "stop" }],
    usage := { promptTokens := 1, completionTokens := 1, totalTokens := 2 } }

/-- Witness for C5 at a concrete input: one-choice response "hi" and a failing
store call; the transient record still carries "hi" and exactly one
`ai_complete` envelope is broadcast. -/
theorem ai_complete_always_broadcast_witness :
    (Except.ok sampleChatResponse : Except String KolosalChatResponse)
      = Except.ok sampleChatResponse ∧
    (kolosalAPIChat "r1" "u1" "t1" 7 (Except.ok sampleChatResponse)
        (Except.error "store down")).1.countP
      (fun x => x.eventType == "ai_complete") = 1 ∧
    (aiMessageResult "r1" (aiResponseOf sampleChatResponse) 7
        (Except.error "store down")).message
      = aiResponseOf sampleChatResponse :=
  ⟨rfl,
    (ai_complete_always_broadcast "r1" "u1" "t1" 7 _ (Except.error "store down")
        sampleChatResponse rfl).2.1,
    (ai_complete_always_broadcast "r1" "u1" "t1" 7 _ (Except.error "store down")
        sampleChatResponse rfl).2.2.2.2 "store down" rfl⟩

/-- C6: a full text of length 0 emits zero `ai_stream` envelopes and proceeds
directly to the terminal `ai_complete` broadcast. -/
theorem relay_empty_text (roomID userID tempID : String) (now : Nat)
    (createResult : Except String ChatMessageResponse) (aiResponse : String)
    (h : aiResponse.length = 0) :
    relayAndComplete roomID userID tempID now aiResponse createResult
      = [completeEnvelope roomID userID tempID
            (aiMessageResult roomID aiResponse now createResult)] ∧
    (relayAndComplete roomID userID tempID now aiResponse createResult).countP
      (fun x => x.eventType == "ai_stream") = 0 := by
  have hempty : aiResponse.toList = [] := by
    have hlen : aiResponse.toList.length = 0 := h
    exact List.length_eq_zero.mp hlen
  have h1 : relayAndComplete roomID userID tempID now aiResponse createResult
      = [completeEnvelope roomID userID tempID
            (aiMessageResult roomID aiResponse now createResult)] := by
    unfold relayAndComplete relayEnvelopes relayPayloads
    rw [hempty]
    rfl
  refine ⟨h1, ?_⟩
  rw [h1]
  simp [completeEnvelope, List.countP_cons, List.countP_nil]

/-- Witness for C6: the empty response text yields only the `ai_complete`
envelope. -/
theorem relay_empty_text_witness :
    ("" : String).length = 0 ∧
    relayAndComplete "r1" "u1" "t1" 3 "" (Except.error "store down")
      = [completeEnvelope "r1" "u1" "t1"
            (aiMessageResult "r1" "" 3 (Except.error "store down"))] ∧
    (relayAndComplete "r1" "u1" "t1" 3 "" (Except.error "store down")).countP
      (fun x => x.eventType == "ai_stream") = 0 :=
  ⟨rfl, (relay_empty_text "r1" "u1" "t1" 3 (Except.error "store down") "" rfl).1,
    (relay_empty_text "r1" "u1" "t1" 3 (Except.error "store down") "" rfl).2⟩

/-! ## Chunk-size configuration (C7)

`chunkSize` is a hard-coded constant in the handler body; there is no
configuration input and no validation.  To settle what the source would do
under `chunk_size <= 0`, the Go chunk-count expression is modelled over Go
ints: Go's `/` truncates toward zero and panics on a zero divisor. -/

/-- The Go expression `(n + chunkSize - 1) / chunkSize` over Go ints, with the
division-by-zero runtime panic made explicit as `none`. -/
def relayTotalChunksGo (n cs : Int) : Option Int :=
  if cs = 0 then none else some (Int.tdiv (n + cs - 1) cs)

/-- C7 counterexample: the chunk size is the unvalidated hard-coded constant
20; a zero chunk size would not be rejected before the relay starts — the
chunk-count computation itself divides by zero (a Go runtime panic, `none`). -/
theorem chunk_size_zero_not_rejected :
    chunkSize = 20 ∧ relayTotalChunksGo 5 0 = none :=
  ⟨rfl, rfl⟩

/-- C7 (amended): the relay's chunk size is hard-coded to 20, which is
positive, so the relay never runs with chunk_size ≤ 0 and no rejection logic
exists (a zero chunk size would panic at the chunk-count division instead of
being rejected); under the actual constant the Go computation is total and
agrees with the `Nat` chunk-count model. -/
theorem chunk_size_hardcoded_positive :
    chunkSize = 20 ∧ 0 < chunkSize ∧
    ∀ n : Nat, relayTotalChunksGo (n : Int) (chunkSize : Int)
      = some ((totalChunks n chunkSize : Nat) : Int) := by
  refine ⟨rfl, by decide, ?_⟩
  intro n
  unfold relayTotalChunksGo totalChunks chunkSize
  rw [if_neg (by norm_num : ¬ (((20 : Nat) : Int) = 0))]
  congr 1
  have h2 : n + 20 - 1 = n + 19 := by omega
  have h1 : ((n : Int) + ((20 : Nat) : Int) - 1) = ((n + 19 : Nat) : Int) := by
    push_cast
    ring
  rw [h1, h2, ← Int.ofNat_tdiv]

/-! ## GetMessages query sanitization (chat_handler.go lines 79-108)

Source:
```
limit := 50 // default limit
offset := 0
if limitStr := c.Query("limit"); limitStr != "" {
    if parsed, err := strconv.Atoi(limitStr); err == nil && parsed > 0 { limit = parsed }
}
if offsetStr := c.Query("offset"); offsetStr != "" {
    if parsed, err := strconv.Atoi(offsetStr); err == nil && parsed >= 0 { offset = parsed }
}
messages, err := h.chatService.GetMessages(roomID, limit, offset)
```
-/

/-- Decimal digit accumulation of Go `strconv.Atoi`: fails on any non-digit. -/
def digitsVal (acc : Nat) : List Char → Option Nat
  | [] => some acc
  | c :: t => if c.isDigit then digitsVal (acc * 10 + (c.toNat - 48)) t else none

/-- Go `strconv.Atoi`: optional sign, then one or more decimal digits, nothing
else; out-of-int64-range values are a range error (`none`). -/
def goAtoi (s : String) : Option Int :=
  match s.toList with
  | [] => none
  | c :: rest =>
    let digits := if c = '+' || c = '-' then rest else c :: rest
    if digits.isEmpty then none
    else
      match digitsVal 0 digits with
      | none => none
      | some n =>
        let v : Int := if c = '-' then -(n : Int) else (n : Int)
        if v < -9223372036854775808 || 9223372036854775807 < v then none else some v

/-- The `limit` forwarded to `chatService.GetMessages`. -/
def getMessagesLimit (limitStr : String) : Int :=
  if limitStr = "" then 50
  else
    match goAtoi limitStr with
    | some parsed => if 0 < parsed then parsed else 50
    | none => 50

/-- The `offset` forwarded to `chatService.GetMessages`. -/
def getMessagesOffset (offsetStr : String) : Int :=
  if offsetStr = "" then 0
  else
    match goAtoi offsetStr with
    | some parsed => if 0 ≤ parsed then parsed else 0
    | none => 0

/-- The claim's sanitization rule for `limit`, stated from its words: the
parsed query value when it parses as a positive integer, 50 otherwise. -/
def sanitizedLimit (limitStr : String) : Int :=
  match goAtoi limitStr with
  | some parsed => if 0 < parsed then parsed else 50
  | none => 50

/-- The claim's sanitization rule for `offset`, stated from its words: the
parsed query value when it parses as a non-negative integer, 0 otherwise. -/
def sanitizedOffset (offsetStr : String) : Int :=
  match goAtoi offsetStr with
  | some parsed => if 0 ≤ parsed then parsed else 0
  | none => 0

/-- C9: for every request, the limit forwarded to the chat service follows the
claim's sanitization rule (the parsed `limit` query value when positive, 50
otherwise), the offset likewise (non-negative parse or 0), and hence the
service is always invoked with limit > 0 and offset ≥ 0. -/
theorem getMessages_query_sanitization (limitStr offsetStr : String) :
    getMessagesLimit limitStr = sanitizedLimit limitStr ∧
    0 < getMessagesLimit limitStr ∧
    getMessagesOffset offsetStr = sanitizedOffset offsetStr ∧
    0 ≤ getMessagesOffset offsetStr := by
  refine ⟨?_, ?_, ?_, ?_⟩
  · by_cases hs : limitStr = ""
    · subst hs
      rfl
    · unfold getMessagesLimit sanitizedLimit
      rw [if_neg hs]
  · unfold getMessagesLimit
    by_cases hs : limitStr = ""
    · rw [if_pos hs]
      norm_num
    · rw [if_neg hs]
      cases hA : goAtoi limitStr with
      | none => norm_num
      | some p =>
        show (0 : Int) < if 0 < p then p else 50
        by_cases hp : (0 : Int) < p
        · rw [if_pos hp]
          exact hp
        · rw [if_neg hp]
          norm_num
  · by_cases hs : offsetStr = ""
    · subst hs
      rfl
    · unfold getMessagesOffset sanitizedOffset
      rw [if_neg hs]
  · unfold getMessagesOffset
    by_cases hs : offsetStr = ""
    · rw [if_pos hs]
    · rw [if_neg hs]
      cases hA : goAtoi offsetStr with
      | none => norm_num
      | some p =>
        show (0 : Int) ≤ if 0 ≤ p then p else 0
        by_cases hp : (0 : Int) ≤ p
        · rw [if_pos hp]
          exact hp
        · rw [if_neg hp]

/-! ## ChatCompletions configuration guards and URL building
(kolosal_service.go lines 72-101)

Source:
```
if s.apiKey == "" { return nil, fmt.Errorf("KOLOSAL_API_KEY is not set. ...") }
if s.apiURL == "" { return nil, fmt.Errorf("KOLOSAL_API_URL is not set. ...") }
requestBody, err := json.Marshal(request)   // cannot fail for these field types
apiURL := s.apiURL
if !strings.HasSuffix(apiURL, "/") { apiURL += "/" }
apiURL += "v1/chat/completions"
req, err := http.NewRequest("POST", apiURL, bytes.NewBuffer(requestBody))
```
-/

/-- Go `strings.HasSuffix`. -/
def hasSuffixGo (s suf : String) : Bool := suf.toList.isSuffixOf s.toList

/-- The URL of the HTTP request `ChatCompletions` performs. -/
def buildKolosalURL (apiURL : String) : String :=
  (if hasSuffixGo apiURL "/" then apiURL else apiURL ++ "/") ++ "v1/chat/completions"

/-- The observable outcome of `ChatCompletions` up to its HTTP call: either a
configuration error returned before any request, or an HTTP request at the
built URL. -/
inductive ChatCompletionsStep where
  | configError (msg : String)
  | httpRequest (url : String)
  deriving DecidableEq, Repr

/-- The error message for an unset API key. -/
def keyNotSetMsg : String :=
  "KOLOSAL_API_KEY is not set. Please configure KOLOSAL_API_KEY environment variable"

/-- The error message for an unset API URL. -/
def urlNotSetMsg : String :=
  "KOLOSAL_API_URL is not set. Please configure KOLOSAL_API_URL environment variable"

/-- `ChatCompletions` up to the point the HTTP request is issued. -/
def chatCompletionsPrepare (apiKey apiURL : String) : ChatCompletionsStep :=
  if apiKey = "" then .configError keyNotSetMsg
  else if apiURL = "" then .configError urlNotSetMsg
  else .httpRequest (buildKolosalURL apiURL)

/-- A rune list with its trailing slashes removed. -/
def dropTrailingSlashes (l : List Char) : List Char :=
  (l.reverse.dropWhile (fun c => c == '/')).reverse

/-- The claim's join rule, stated from its words: the request URL is the
configured base URL (its trailing slashes aside) joined to the endpoint by
exactly one "/". -/
def claimJoinURL (apiURL : String) : String :=
  String.mk (dropTrailingSlashes apiURL.toList) ++ "/v1/chat/completions"

/-- C10 counterexample: a configured base URL ending in a double slash keeps
both slashes, so the request URL joins the endpoint with two "/" characters,
not exactly one. -/
theorem chatCompletions_double_slash_join :
    chatCompletionsPrepare "kol_k" "http://h//"
      = .httpRequest "http://h//v1/chat/completions" ∧
    strContains "http://h//v1/chat/completions" "//v1/chat/completions" = true ∧
    buildKolosalURL "http://h//" ≠ claimJoinURL "http://h//" := by
  refine ⟨by decide, by decide, by decide⟩

/-- C10 (amended): an empty configured API key or API URL makes
`ChatCompletions` return a configuration error before any HTTP request; when a
request is performed its URL is the configured base followed by
"v1/chat/completions", with a "/" inserted exactly when the base does not
already end in "/" — so the join has exactly one "/" whenever the base ends in
at most one "/", while a base already ending in repeated slashes keeps them. -/
theorem chatCompletions_guard_and_url (apiKey apiURL : String) :
    (apiKey = "" → chatCompletionsPrepare apiKey apiURL = .configError keyNotSetMsg) ∧
    (apiKey ≠ "" → apiURL = "" →
      chatCompletionsPrepare apiKey apiURL = .configError urlNotSetMsg) ∧
    (apiKey ≠ "" → apiURL ≠ "" →
      chatCompletionsPrepare apiKey apiURL = .httpRequest (buildKolosalURL apiURL)) ∧
    hasSuffixGo (buildKolosalURL apiURL) "v1/chat/completions" = true ∧
    (hasSuffixGo apiURL "/" = false →
      buildKolosalURL apiURL = apiURL ++ "/v1/chat/completions") ∧
    (hasSuffixGo apiURL "/" = true →
      buildKolosalURL apiURL = apiURL ++ "v1/chat/completions") ∧
    (∀ b : String, apiURL = b ++ "/" →
      buildKolosalURL apiURL = b ++ "/v1/chat/completions") := by
  refine ⟨?_, ?_, ?_, ?_, ?_, ?_, ?_⟩
  · intro hk
    unfold chatCompletionsPrepare
    rw [if_pos hk]
  · intro hk hu
    unfold chatCompletionsPrepare
    rw [if_neg hk, if_pos hu]
  · intro hk hu
    unfold chatCompletionsPrepare
    rw [if_neg hk, if_neg hu]
  · have key : ∀ b : String,
        hasSuffixGo (b ++ "v1/chat/completions") "v1/chat/completions" = true := by
      intro b
      unfold hasSuffixGo
      rw [List.isSuffixOf_iff_suffix]
      rw [show (b ++ "v1/chat/completions").toList
            = b.toList ++ "v1/chat/completions".toList from String.data_append b _]
      exact List.suffix_append _ _
    unfold buildKolosalURL
    exact key _
  · intro hb
    unfold buildKolosalURL
    rw [if_neg (by simp [hb]), String.append_assoc]
    rfl
  · intro hb
    unfold buildKolosalURL
    rw [if_pos hb]
  · intro b hb
    subst hb
    unfold buildKolosalURL
    have hs : hasSuffixGo (b ++ "/") "/" = true := by
      unfold hasSuffixGo
      rw [List.isSuffixOf_iff_suffix]
      have : (b ++ "/").toList = b.toList ++ "/".toList := String.data_append b "/"
      rw [this]
      exact List.suffix_append b.toList "/".toList
    rw [if_pos hs, String.append_assoc]
    rfl

/-- Witness for C10 (amended): empty key short-circuits; a base URL without a
trailing slash gets exactly one "/" inserted. -/
theorem chatCompletions_guard_and_url_witness :
    ("" : String) = "" ∧
    chatCompletionsPrepare "" "http://h" = ChatCompletionsStep.configError keyNotSetMsg ∧
    hasSuffixGo "http://h" "/" = false ∧
    buildKolosalURL "http://h" = "http://h" ++ "/v1/chat/completions" :=
  ⟨rfl, (chatCompletions_guard_and_url "" "http://h").1 rfl, by decide,
    (chatCompletions_guard_and_url "" "http://h").2.2.2.2.1 (by decide)⟩

/-! ## The Broadcast Hub (spec-modelled)

hub.go / client.go are not among the provided sources; per the design spec
(§4.3, §5) one coordination task owns the Room Registry outright and processes
a strictly serialized stream of `register`/`deregister`/`broadcast` control
events, so the hub is modelled as a fold of a step function over the
submission-ordered event list.  A member's "received" envelopes are the ones
the coordination task pushes onto its outbound queue. -/

/-- An envelope submitted to the hub; `seq` is the producer's submission tag. -/
structure HubEnvelope where
  roomId : String
  seq : Nat
  deriving DecidableEq, Repr

/-- Modelled from the spec: the hub's control events (§4.3). -/
inductive HubEvent where
  | register (roomId : String) (m : Nat)
  | deregister (m : Nat)
  | broadcast (env : HubEnvelope)
  deriving DecidableEq, Repr

/-- Modelled from the spec: the Room Registry (room → member set) plus each
member's received envelopes, in delivery order. -/
structure HubState where
  registry : String → List Nat
  delivered : Nat → List HubEnvelope

/-- The empty hub. -/
def HubState.init : HubState := ⟨fun _ => [], fun _ => []⟩

/-- Modelled from the spec: the coordination task's handling of one control
event — `register` adds the member to the room's set, `deregister` removes it
everywhere (idempotent), `broadcast` pushes the envelope to every member
currently in the envelope's room. -/
def hubStep (s : HubState) : HubEvent → HubState
  | .register r m =>
    { s with registry := fun q =>
        if q = r then (if m ∈ s.registry r then s.registry r else s.registry r ++ [m])
        else s.registry q }
  | .deregister m =>
    { s with registry := fun q => (s.registry q).filter (fun x => x != m) }
  | .broadcast env =>
    { s with delivered := fun m =>
        if m ∈ s.registry env.roomId then s.delivered m ++ [env] else s.delivered m }

/-- The hub state after processing `evs` starting from `s`. -/
def hubFold (s : HubState) (evs : List HubEvent) : HubState := evs.foldl hubStep s

/-- The hub state after processing `evs` from the empty hub. -/
def hubRun (evs : List HubEvent) : HubState := hubFold HubState.init evs

/-- The broadcast envelopes of an event sequence, in submission order. -/
def hubBroadcasts (evs : List HubEvent) : List HubEnvelope :=
  evs.filterMap fun e =>
    match e with
    | .broadcast env => some env
    | _ => none

theorem hubFold_take_succ (evs : List HubEvent) (s : HubState) (i : Nat)
    (e : HubEvent) (h : evs[i]? = some e) :
    hubFold s (evs.take (i + 1)) = hubStep (hubFold s (evs.take i)) e := by
  unfold hubFold
  rw [List.take_succ, h, List.foldl_append]
  rfl

theorem hubStep_broadcast_delivered (s : HubState) (env : HubEnvelope) (m : Nat) :
    (hubStep s (.broadcast env)).delivered m
      = if m ∈ s.registry env.roomId then s.delivered m ++ [env] else s.delivered m := rfl

theorem hubFold_delivered_sublist (evs : List HubEvent) (s : HubState) (m : Nat) :
    ∃ t, (hubFold s evs).delivered m = s.delivered m ++ t ∧
      List.Sublist t (hubBroadcasts evs) := by
  induction evs generalizing s with
  | nil => exact ⟨[], by simp [hubFold, hubBroadcasts]⟩
  | cons e evs ih =>
    have hstep : hubFold s (e :: evs) = hubFold (hubStep s e) evs := rfl
    obtain ⟨t, ht, hsub⟩ := ih (hubStep s e)
    cases e with
    | register r mm =>
      refine ⟨t, ?_, ?_⟩
      · rw [hstep, ht]
        rfl
      · exact hsub
    | deregister mm =>
      refine ⟨t, ?_, ?_⟩
      · rw [hstep, ht]
        rfl
      · exact hsub
    | broadcast env =>
      by_cases hm : m ∈ s.registry env.roomId
      · refine ⟨env :: t, ?_, ?_⟩
        · rw [hstep, ht, hubStep_broadcast_delivered, if_pos hm, List.append_assoc]
          rfl
        · exact List.Sublist.cons₂ env hsub
      · refine ⟨t, ?_, ?_⟩
        · rw [hstep, ht, hubStep_broadcast_delivered, if_neg hm]
        · exact List.Sublist.cons env hsub

/-- C8 (spec-modelled hub): for every serialized sequence of `register`,
`deregister` and `broadcast` control events, (a) every member present in the
room's registry at the instant a broadcast is processed receives exactly one
copy of that envelope at that instant, (b) members not then present receive
nothing, and (c) every member's received sequence is a subsequence of the
broadcast submission order, so envelopes arrive in submission order. -/
theorem hub_delivery_exactly_once_in_order (evs : List HubEvent) :
    (∀ i env m, evs[i]? = some (HubEvent.broadcast env) →
      m ∈ (hubRun (evs.take i)).registry env.roomId →
      (hubRun (evs.take (i + 1))).delivered m
        = (hubRun (evs.take i)).delivered m ++ [env]) ∧
    (∀ i env m, evs[i]? = some (HubEvent.broadcast env) →
      m ∉ (hubRun (evs.take i)).registry env.roomId →
      (hubRun (evs.take (i + 1))).delivered m = (hubRun (evs.take i)).delivered m) ∧
    (∀ m, List.Sublist ((hubRun evs).delivered m) (hubBroadcasts evs)) := by
  refine ⟨?_, ?_, ?_⟩
  · intro i env m hi hm
    unfold hubRun at hm ⊢
    rw [hubFold_take_succ evs HubState.init i _ hi, hubStep_broadcast_delivered,
      if_pos hm]
  · intro i env m hi hm
    unfold hubRun at hm ⊢
    rw [hubFold_take_succ evs HubState.init i _ hi, hubStep_broadcast_delivered,
      if_neg hm]
  · intro m
    obtain ⟨t, ht, hsub⟩ := hubFold_delivered_sublist evs HubState.init m
    unfold hubRun
    rw [ht]
    simpa using hsub

/-- A two-event trace: member 1 joins room "r", then one broadcast to "r". -/
def hubWitnessEvents : List HubEvent :=
  [HubEvent.register "r" 1, HubEvent.broadcast { roomId := "r", seq := 0 }]

/-- Witness for C8 at a concrete trace: the member present at broadcast time
receives exactly that envelope, and its inbox follows submission order. -/
theorem hub_delivery_witness :
    hubWitnessEvents[1]? = some (HubEvent.broadcast { roomId := "r", seq := 0 }) ∧
    1 ∈ (hubRun (hubWitnessEvents.take 1)).registry "r" ∧
    (hubRun (hubWitnessEvents.take 2)).delivered 1
      = (hubRun (hubWitnessEvents.take 1)).delivered 1
          ++ [{ roomId := "r", seq := 0 }] ∧
    List.Sublist ((hubRun hubWitnessEvents).delivered 1)
      (hubBroadcasts hubWitnessEvents) :=
  ⟨by decide, by decide,
    (hub_delivery_exactly_once_in_order hubWitnessEvents).1 1
      { roomId := "r", seq := 0 } 1 (by decide) (by decide),
    (hub_delivery_exactly_once_in_order hubWitnessEvents).2.2 1⟩
